import Mathlib

/-
Shallow embedding of `src/fignet/collision.py` (class `CollisionManager`).

Modelling conventions:
- Real-valued numpy data is embedded over `ℚ` (exact arithmetic; the spec's
  transform laws are stated up to floating-point tolerance, which exact
  rationals subsume).
- A 4x4 matrix passed to `set_transform` is a `Mat4`; the raw array passed to
  `add_object` is an untyped `Arr` (list of rows) because `add_object` checks
  its shape at runtime (`transform.shape != (4, 4)`).
- `hppfcl` collision objects are identified by allocation-order ids; a
  `Transform3f` keeps only the rotation block and translation column of a 4x4
  matrix, which `setRT` reproduces (bottom row pinned to `[0,0,0,1]`).
- Python exceptions are modelled by the `Err` type; mutating methods return
  `CMState × Option Err` in source order, so an early raise returns the state
  mutated up to the raise point (for every raise modelled here the source
  raises before any registry mutation, except `np.linalg.inv`'s `LinAlgError`
  which fires after the engine pose update, exactly as in the source).
- `self._manager.unregisterObject(self._objs[name])` in `add_object` passes
  the registry entry dict where the binding expects a `CollisionObject`; the
  binding rejects the argument, modelled as `Err.typeError` raised before any
  registry mutation.
- `trimesh.Trimesh.apply_transform` on vertices is affine application of the
  4x4 matrix to homogeneous coordinates (`applyPoint`); meshes are vertex
  lists with value semantics.
-/

namespace FignetCollision

abbrev Mat4 := Matrix (Fin 4) (Fin 4) ℚ

abbrev Point := Fin 3 → ℚ

/-- A raw 2-d numpy array: a list of rows. -/
abbrev Arr := List (List ℚ)

/-- Shape check `transform.shape == (4, 4)` from `add_object`. -/
def arrIs4x4 (a : Arr) : Bool := a.length = 4 && a.all (fun r => r.length = 4)

/-- Read a well-shaped raw array as a 4x4 matrix (out-of-range reads default
to 0; never exercised on well-shaped arrays). -/
def toMat4 (a : Arr) : Mat4 := fun i j => ((a.getD i.val []).getD j.val 0)

/-- The identity `np.eye(4)` as a raw array. -/
def eye4 : Arr := [[1,0,0,0],[0,1,0,0],[0,0,1,0],[0,0,0,1]]

/-- The pose stored in an `fcl.Transform3f(t[:3,:3], t[:3,3])`: the rotation
block and translation column of `t`, with the bottom row pinned to
`[0,0,0,1]`. -/
def setRT (t : Mat4) : Mat4 := fun i j =>
  if i = 3 then (if j = 3 then 1 else 0) else t i j

/-- Property that `t` has bottom row `[0, 0, 0, 1]` (an affine/rigid homogeneous matrix). -/
def IsAffine (t : Mat4) : Prop :=
  t 3 0 = 0 ∧ t 3 1 = 0 ∧ t 3 2 = 0 ∧ t 3 3 = 1

instance (t : Mat4) : Decidable (IsAffine t) := by
  unfold IsAffine; infer_instance

/-- Apply a homogeneous 4x4 matrix to a 3-d vertex, as
`trimesh.Trimesh.apply_transform` does on each vertex: multiply
`[x, y, z, 1]` by the matrix and keep the first three coordinates. -/
def applyPoint (t : Mat4) (p : Point) : Point := fun i =>
  t i.castSucc 0 * p 0 + t i.castSucc 1 * p 1 + t i.castSucc 2 * p 2 + t i.castSucc 3

/-- Vertex centroid of a mesh. -/
def centroid (m : List Point) : Point := fun i =>
  (m.map (fun p => p i)).sum / (m.length : ℚ)

/-- Model of `np.linalg.inv` on a nonsingular matrix (classical adjugate formula; the
singular case is guarded by a `LinAlgError` check at the call site). -/
def npInv (A : Mat4) : Mat4 := A.det⁻¹ • A.adjugate

/-- Python exceptions raised by `CollisionManager` methods. -/
inductive Err where
  | valueError (msg : String)
  | keyError
  | typeError
  | assertionError
  | runtimeWarning (msg : String)
  | linAlgError
deriving DecidableEq

/-- One value of `self._objs`: the collision object handle (`"obj"`), the
geometry id (`"geom"`, keyed by `geom.id()`), and the mesh (`"mesh"`). -/
structure Entry where
  objId : Nat
  geomId : Nat
  mesh : List Point
deriving DecidableEq

/-- The state of a `CollisionManager`:
`objs` is `self._objs`, `applied` is `self._applied_transforms`, `names` is
`self._names` (a `defaultdict` returning `None`), `poses` gives each
registered `fcl.CollisionObject`'s current `Transform3f` by object id,
`registered` is the set of object ids held by the
`DynamicAABBTreeCollisionManager`, and `nextId` allocates fresh ids. -/
@[ext]
structure CMState where
  objs : String → Option Entry
  applied : String → Option Mat4
  names : Nat → Option String
  poses : Nat → Mat4
  registered : List Nat
  nextId : Nat

/-- The state after `CollisionManager.__init__`. -/
def initState : CMState :=
  { objs := fun _ => none
    applied := fun _ => none
    names := fun _ => none
    poses := fun _ => 1
    registered := []
    nextId := 0 }

/-- Embedding of `CollisionManager.add_object`. Local `verts`/`faces`/`geom` construction
has no state effect; on an already-present name the source passes the registry
entry dict `self._objs[name]` (not the stored `CollisionObject`) to
`unregisterObject`, which the engine binding rejects with a `TypeError` before
any registry mutation. -/
def add_object (name : String) (mesh : List Point) (transform : Option Arr)
    (s : CMState) : CMState × Option Err :=
  let tArr := transform.getD eye4
  if arrIs4x4 tArr = false then
    (s, some (.valueError "transform must be (4,4)!"))
  else
    let t := toMat4 tArr
    let geomId := s.nextId
    let objId := s.nextId + 1
    match s.objs name with
    | some _ => (s, some .typeError)
    | none =>
      ({ objs := fun n => if n = name then some ⟨objId, geomId, mesh⟩ else s.objs n
         applied := s.applied
         names := fun g => if g = geomId then some name else s.names g
         poses := fun o => if o = objId then setRT t else s.poses o
         registered := objId :: s.registered
         nextId := s.nextId + 2 }, none)

/-- The shared tail of `set_transform` once the new absolute transform `t` is
known: set the engine object's rotation/translation, refresh the index, then
undo the previously applied transform on the mesh (if any; `np.linalg.inv`
raises `LinAlgError` on a singular matrix, after the pose was already set),
apply `t`, and record `t` as the applied transform. -/
def set_update (name : String) (t : Mat4) (e : Entry) (s : CMState) :
    CMState × Option Err :=
  let s1 : CMState :=
    { s with poses := fun o => if o = e.objId then setRT t else s.poses o }
  match s.applied name with
  | some p =>
    if p.det = 0 then (s1, some .linAlgError)
    else
      let mesh1 := (e.mesh.map (applyPoint (npInv p))).map (applyPoint t)
      ({ s1 with
          objs := fun n => if n = name then some { e with mesh := mesh1 } else s.objs n
          applied := fun n => if n = name then some t else s.applied n }, none)
  | none =>
      let mesh1 := e.mesh.map (applyPoint t)
      ({ s1 with
          objs := fun n => if n = name then some { e with mesh := mesh1 } else s.objs n
          applied := fun n => if n = name then some t else s.applied n }, none)

/-- Embedding of `CollisionManager.set_transform`. -/
def set_transform (name : String) (transform : Mat4) (relative : Bool)
    (s : CMState) : CMState × Option Err :=
  match s.objs name with
  | some e =>
    match relative, s.applied name with
    | true, none => (s, some .keyError)
    | true, some p => set_update name (transform * p) e s
    | false, _ => set_update name transform e s
  | none => (s, some (.valueError (name ++ " not in collision manager!")))

/-- Embedding of `CollisionManager.get_transform`. -/
def get_transform (name : String) (s : CMState) : Except Err Mat4 :=
  match s.objs name with
  | some _ =>
    match s.applied name with
    | some t => .ok t
    | none => .error .keyError
  | none => .error (.valueError (name ++ " not in collision manager!"))

/-- An `hppfcl.Contact`: two geometry ids (`o1`, `o2`), two sub-element
(triangle) indices (`b1`, `b2`), and the two nearest points. -/
structure Contact where
  o1 : Nat
  o2 : Nat
  b1 : Nat
  b2 : Nat
  p1 : Point
  p2 : Point

/-- Embedding of `CollisionManager._extract_name`: look the geometry's `id()` up in
`self._names`; unpopulated keys return `None`. -/
def extract_name (s : CMState) (g : Nat) : Option String := s.names g

abbrev PairKey := String × String × Nat × Nat

abbrev PairMap := PairKey → Option (Point × Point)

/-- Body of the `for contact in contacts` loop of `get_collision_pairs`:
resolve both names (the `assert ... is not None` raises `AssertionError` on
failure), raise `RuntimeWarning` on a duplicate key, store the pair, and with
`bidirectional` also store the mirrored pair. -/
def resolveStep (s : CMState) (bidirectional : Bool) (acc : PairMap)
    (c : Contact) : Except Err PairMap :=
  match extract_name s c.o1 with
  | none => .error .assertionError
  | some name1 =>
    match extract_name s c.o2 with
    | none => .error .assertionError
    | some name2 =>
      if (acc (name1, name2, c.b1, c.b2)).isSome then
        .error (.runtimeWarning "conflicting contact pairs!")
      else
        let acc1 : PairMap :=
          fun k => if k = (name1, name2, c.b1, c.b2) then some (c.p1, c.p2) else acc k
        if bidirectional then
          .ok (fun k =>
            if k = (name2, name1, c.b2, c.b1) then some (c.p2, c.p1) else acc1 k)
        else .ok acc1

/-- Embedding of `CollisionManager.get_collision_pairs`. -/
def get_collision_pairs (s : CMState) (contacts : List Contact)
    (bidirectional : Bool) : Except Err PairMap :=
  contacts.foldlM (resolveStep s bidirectional) (fun _ => none)

/-- Value of a key in the result of `get_collision_pairs` (none if the call
raised or the key is absent). -/
def pairAt (r : Except Err PairMap) (k : PairKey) : Option (Point × Point) :=
  match r with
  | .ok m => m k
  | .error _ => none

/-- Sequencing of two Python statements: the second runs only when the first
did not raise. -/
def pyThen (r : CMState × Option Err) (g : CMState → CMState × Option Err) :
    CMState × Option Err :=
  match r with
  | (s, none) => g s
  | (s, some e) => (s, some e)

/-- The key `(name1, name2, contact.b1, contact.b2)` a contact resolves to,
when both geometry ids are tracked. -/
def contactKey (s : CMState) (c : Contact) : Option PairKey :=
  match extract_name s c.o1, extract_name s c.o2 with
  | some n1, some n2 => some (n1, n2, c.b1, c.b2)
  | _, _ => none

/-- Consistency of the three pose representations for `name`: the engine
object's `Transform3f`, the recorded applied transform, and the mesh vertices
(equal to the registration-time mesh `mesh0` moved by the applied transform),
with the applied transform an invertible affine pose. -/
def Synced (s : CMState) (name : String) (mesh0 : List Point) : Prop :=
  ∃ e t, s.objs name = some e ∧ s.applied name = some t ∧
    IsAffine t ∧ t.det ≠ 0 ∧
    s.poses e.objId = setRT t ∧ e.mesh = mesh0.map (applyPoint t)

/-- Mirror-closure of a collision-pair map: every key's mirror is present,
and carries the swapped points whenever the mirror differs from the key. -/
def MirrorInv (m : PairMap) : Prop :=
  ∀ a b i j pq, m (a, b, i, j) = some pq →
    (m (b, a, j, i)).isSome ∧
    ((a, b, i, j) ≠ ((b, a, j, i) : PairKey) → m (b, a, j, i) = some (pq.2, pq.1))

section TransformLemmas

lemma castSucc_zero3 : (0 : Fin 3).castSucc = (0 : Fin 4) := rfl

lemma castSucc_one3 : (1 : Fin 3).castSucc = (1 : Fin 4) := rfl

lemma castSucc_two3 : (2 : Fin 3).castSucc = (2 : Fin 4) := rfl

lemma applyPoint_applyPoint (A B : Mat4) (p : Point) (hB : IsAffine B) :
    applyPoint A (applyPoint B p) = applyPoint (A * B) p := by
  obtain ⟨h0, h1, h2, h3⟩ := hB
  funext i
  simp only [applyPoint, Matrix.mul_apply, Fin.sum_univ_four,
    castSucc_zero3, castSucc_one3, castSucc_two3]
  rw [h0, h1, h2, h3]
  ring

lemma applyPoint_one (p : Point) : applyPoint 1 p = p := by
  funext i
  fin_cases i <;>
    simp [applyPoint, castSucc_zero3, castSucc_one3, castSucc_two3,
      Matrix.one_apply]

lemma npInv_mul_self (A : Mat4) (hA : A.det ≠ 0) : npInv A * A = 1 := by
  rw [npInv, Matrix.smul_mul, Matrix.adjugate_mul, smul_smul,
    inv_mul_cancel₀ hA, one_smul]

lemma applyPoint_npInv_cancel (A : Mat4) (hAff : IsAffine A) (hA : A.det ≠ 0)
    (p : Point) : applyPoint (npInv A) (applyPoint A p) = p := by
  rw [applyPoint_applyPoint _ _ _ hAff, npInv_mul_self A hA, applyPoint_one]

lemma map_applyPoint_npInv_cancel (A : Mat4) (hAff : IsAffine A)
    (hA : A.det ≠ 0) (m : List Point) :
    (m.map (applyPoint A)).map (applyPoint (npInv A)) = m := by
  rw [List.map_map]
  have : applyPoint (npInv A) ∘ applyPoint A = id := by
    funext p
    exact applyPoint_npInv_cancel A hAff hA p
  rw [this, List.map_id]

lemma isAffine_one : IsAffine (1 : Mat4) := by
  refine ⟨?_, ?_, ?_, ?_⟩ <;> simp [Matrix.one_apply]

lemma isAffine_mul (A B : Mat4) (hA : IsAffine A) (hB : IsAffine B) :
    IsAffine (A * B) := by
  obtain ⟨a0, a1, a2, a3⟩ := hA
  obtain ⟨b0, b1, b2, b3⟩ := hB
  refine ⟨?_, ?_, ?_, ?_⟩ <;>
    · rw [Matrix.mul_apply, Fin.sum_univ_four, a0, a1, a2, a3]
      simp [b0, b1, b2, b3]

lemma sum_map_affine (a b c d : ℚ) (m : List Point) :
    (m.map (fun p => a * p 0 + b * p 1 + c * p 2 + d)).sum
      = a * (m.map (fun p => p 0)).sum + b * (m.map (fun p => p 1)).sum
        + c * (m.map (fun p => p 2)).sum + d * m.length := by
  induction m with
  | nil => simp
  | cons q t ih =>
    simp only [List.map_cons, List.sum_cons, List.length_cons, ih]
    push_cast
    ring

lemma centroid_map (t : Mat4) (m : List Point) (hm : m ≠ []) :
    centroid (m.map (applyPoint t)) = applyPoint t (centroid m) := by
  have hn : (m.length : ℚ) ≠ 0 := by
    exact_mod_cast fun h => hm (List.length_eq_zero.mp h)
  funext i
  simp only [centroid, applyPoint, List.map_map, List.length_map]
  have hcomp :
      ((fun p : Point => p i) ∘ applyPoint t)
        = fun p : Point => t i.castSucc 0 * p 0 + t i.castSucc 1 * p 1
            + t i.castSucc 2 * p 2 + t i.castSucc 3 := by
    funext p
    rfl
  rw [hcomp, sum_map_affine]
  field_simp

end TransformLemmas

section Fixtures

def P0 : Point := ![0, 0, 0]

def P1 : Point := ![1, 0, 0]

/-- Raw 4x4 array translating by +1 along x. -/
def txArr : Arr := [[1,0,0,1],[0,1,0,0],[0,0,1,0],[0,0,0,1]]

/-- A 4x4 matrix translating by +1 along x. -/
def TxM : Mat4 := Matrix.of ![![1,0,0,1],![0,1,0,0],![0,0,1,0],![0,0,0,1]]

def meshA : List Point := [P0]

/-- State after `add_object("a", meshA)` on a fresh manager. -/
def s_a : CMState := (add_object "a" meshA none initState).1

/-- State after additionally `set_transform("a", TxM)`. -/
def s_ab : CMState := (set_transform "a" TxM false s_a).1

/-- State after additionally registering `"b"` (geometry id 2). -/
def s_two : CMState := (add_object "b" [P1] none s_a).1

/-- Contact between geometry 0 (`"a"`) and geometry 2 (`"b"`). -/
def cAB : Contact := ⟨0, 2, 7, 8, P0, P1⟩

/-- Contact whose first geometry id 5 is tracked by no registry. -/
def cBad : Contact := ⟨5, 0, 1, 2, P0, P1⟩

/-- Degenerate self-contact of geometry 0 with equal sub-element indices and
distinct nearest points. -/
def cSelf : Contact := ⟨0, 0, 5, 5, P0, P1⟩

end Fixtures

section ClaimsEval

/-- C3: calling `add_object` twice with the same name does not replace the
object: the source passes the registry entry dict `self._objs[name]` (instead
of the stored `CollisionObject`) to `unregisterObject`, so the engine binding
raises a `TypeError` before any mutation; the first object stays registered
and nothing is deregistered. The theorem evaluates the embedded `add_object`
at the failing input. -/
theorem C3_add_twice_raises :
    add_object "a" [P1] none s_a = (s_a, some Err.typeError)
    ∧ s_a.objs "a" = some ⟨1, 0, meshA⟩
    ∧ s_a.registered = [1] :=
  ⟨rfl, rfl, rfl⟩

/-- C5 counterexample: for a registered name that was never passed to
`set_transform`, `get_transform` does not return a transform — it raises an
uncaught `KeyError` — refuting the claim's final clause. -/
theorem C5_counterexample :
    (s_a.objs "a").isSome = true ∧ get_transform "a" s_a = .error Err.keyError :=
  ⟨rfl, rfl⟩

/-- C5 (amended): `set_transform`/`get_transform` raise the not-found
`ValueError` exactly when the name is unregistered, and on that failure the
state is unchanged; for a registered name with a recorded applied transform,
`get_transform` returns it without error (for a registered name with no
recorded applied transform it raises `KeyError` instead, see the
counterexample). -/
theorem C5_amended :
    (∀ (s : CMState) (name : String) (T : Mat4) (rel : Bool),
        s.objs name = none →
        set_transform name T rel s
          = (s, some (Err.valueError (name ++ " not in collision manager!"))))
    ∧ (∀ (s : CMState) (name : String),
        s.objs name = none →
        get_transform name s
          = .error (Err.valueError (name ++ " not in collision manager!")))
    ∧ (∀ (s : CMState) (name : String) (T : Mat4) (rel : Bool) (msg : String),
        (s.objs name).isSome = true →
        (set_transform name T rel s).2 ≠ some (Err.valueError msg))
    ∧ (∀ (s : CMState) (name : String) (msg : String),
        (s.objs name).isSome = true →
        get_transform name s ≠ .error (Err.valueError msg))
    ∧ (∀ (s : CMState) (name : String) (t : Mat4),
        (s.objs name).isSome = true → s.applied name = some t →
        get_transform name s = .ok t) := by
  refine ⟨?_, ?_, ?_, ?_, ?_⟩
  · intro s name T rel h
    simp [set_transform, h]
  · intro s name h
    simp [get_transform, h]
  · intro s name T rel msg hreg
    obtain ⟨e, he⟩ := Option.isSome_iff_exists.mp hreg
    cases rel with
    | true =>
      cases happ : s.applied name with
      | none => simp [set_transform, he, happ]
      | some p =>
        simp only [set_transform, he, happ]
        by_cases hp : p.det = 0
        · simp [set_update, happ, hp]
        · simp [set_update, happ, hp]
    | false =>
      simp only [set_transform, he]
      cases happ : s.applied name with
      | none => simp [set_update, happ]
      | some p =>
        by_cases hp : p.det = 0
        · simp [set_update, happ, hp]
        · simp [set_update, happ, hp]
  · intro s name msg hreg
    obtain ⟨e, he⟩ := Option.isSome_iff_exists.mp hreg
    cases happ : s.applied name with
    | none => simp [get_transform, he, happ]
    | some p => simp [get_transform, he, happ]
  · intro s name t hreg happ
    obtain ⟨e, he⟩ := Option.isSome_iff_exists.mp hreg
    simp [get_transform, he, happ]

/-- C5 witness: the amended theorem applied at concrete inputs. -/
theorem C5_amended_witness :
    set_transform "x" 1 false initState
      = (initState, some (Err.valueError ("x" ++ " not in collision manager!")))
    ∧ get_transform "x" initState
      = .error (Err.valueError ("x" ++ " not in collision manager!"))
    ∧ (set_transform "a" 1 false s_a).2 ≠ some (Err.valueError "boom")
    ∧ get_transform "a" s_a ≠ .error (Err.valueError "boom")
    ∧ get_transform "a" s_ab = .ok TxM :=
  ⟨C5_amended.1 initState "x" 1 false rfl,
   C5_amended.2.1 initState "x" rfl,
   C5_amended.2.2.1 s_a "a" 1 false "boom" rfl,
   C5_amended.2.2.2.1 s_a "a" "boom" rfl,
   C5_amended.2.2.2.2 s_ab "a" TxM rfl rfl⟩

/-- C6: `add_object` never writes the applied-transform table, and for a
registered name with no applied-transform entry, `get_transform` raises an
uncaught `KeyError` and relative `set_transform` raises an uncaught `KeyError`
before any mutation. -/
theorem C6_applied_table_untouched :
    (∀ (s : CMState) (name : String) (mesh : List Point) (tr : Option Arr),
        ((add_object name mesh tr s).1).applied = s.applied)
    ∧ (∀ (s : CMState) (name : String),
        (s.objs name).isSome = true → s.applied name = none →
        get_transform name s = .error Err.keyError
        ∧ ∀ D : Mat4, set_transform name D true s = (s, some Err.keyError)) := by
  constructor
  · intro s name mesh tr
    by_cases h : arrIs4x4 (tr.getD eye4) = false
    · simp [add_object, h]
    · cases hobj : s.objs name with
      | some e => simp [add_object, h, hobj]
      | none => simp [add_object, h, hobj]
  · intro s name hreg happ
    obtain ⟨e, he⟩ := Option.isSome_iff_exists.mp hreg
    exact ⟨by simp [get_transform, he, happ], fun D => by simp [set_transform, he, happ]⟩

/-- C6 witness: concrete instance of both conjuncts. -/
theorem C6_applied_table_untouched_witness :
    ((add_object "a" meshA none initState).1).applied = initState.applied
    ∧ (get_transform "a" s_a = .error Err.keyError
       ∧ ∀ D : Mat4, set_transform "a" D true s_a = (s_a, some Err.keyError)) :=
  ⟨C6_applied_table_untouched.1 initState "a" meshA none,
   C6_applied_table_untouched.2 s_a "a" rfl rfl⟩

/-- C7 counterexample: `add_object` on an already-registered name does not
perform a replacement at all — it raises `TypeError` (the registry entry dict
is passed to `unregisterObject`), so there is no post-replacement state in
which `get_transform` could be observed. -/
theorem C7_counterexample :
    add_object "a" [P1] (some txArr) s_ab = (s_ab, some Err.typeError) := rfl

/-- C7 (amended): `add_object` on an already-registered name (with a
well-shaped or omitted transform) fails with `TypeError` and leaves the whole
state — in particular the stored applied transform — unchanged, so
`get_transform` still answers as before the call; `add_object` never records
its initial transform in the applied-transform table. -/
theorem C7_amended :
    (∀ (s : CMState) (name : String) (mesh : List Point) (tr : Option Arr),
        (s.objs name).isSome = true → arrIs4x4 (tr.getD eye4) = true →
        add_object name mesh tr s = (s, some Err.typeError))
    ∧ (∀ (s : CMState) (name : String) (mesh : List Point) (tr : Option Arr),
        (s.objs name).isSome = true → arrIs4x4 (tr.getD eye4) = true →
        get_transform name ((add_object name mesh tr s).1) = get_transform name s) := by
  have key : ∀ (s : CMState) (name : String) (mesh : List Point) (tr : Option Arr),
      (s.objs name).isSome = true → arrIs4x4 (tr.getD eye4) = true →
      add_object name mesh tr s = (s, some Err.typeError) := by
    intro s name mesh tr hreg harr
    obtain ⟨e, he⟩ := Option.isSome_iff_exists.mp hreg
    simp [add_object, harr, he]
  exact ⟨key, fun s name mesh tr hreg harr => by rw [key s name mesh tr hreg harr]⟩

/-- C7 witness: the amended theorem applied at a concrete registered name. -/
theorem C7_amended_witness :
    add_object "a" [P1] none s_ab = (s_ab, some Err.typeError)
    ∧ get_transform "a" ((add_object "a" [P1] none s_ab).1)
      = get_transform "a" s_ab :=
  ⟨C7_amended.1 s_ab "a" [P1] none rfl rfl,
   C7_amended.2 s_ab "a" [P1] none rfl rfl⟩

/-- C8 counterexample: with the transform omitted, `add_object` still raises
(`TypeError`) when the name is already registered, refuting the claim's
clause that an omitted transform never leads to an error. -/
theorem C8_counterexample :
    add_object "a" [P1] none s_a = (s_a, some Err.typeError) := rfl

/-- C8 (amended): `add_object` raises the shape `ValueError` exactly when the
supplied transform is not 4x4, before any state mutation; an omitted
transform behaves exactly like the 4x4 identity (and hence never triggers the
validation error) — though a re-add of an existing name still fails with
`TypeError`. -/
theorem C8_amended :
    (∀ (name : String) (mesh : List Point) (a : Arr) (s : CMState),
        arrIs4x4 a = false →
        add_object name mesh (some a) s
          = (s, some (Err.valueError "transform must be (4,4)!")))
    ∧ (∀ (name : String) (mesh : List Point) (tr : Option Arr) (s : CMState),
        (add_object name mesh tr s).2 = some (Err.valueError "transform must be (4,4)!") →
        ∃ a, tr = some a ∧ arrIs4x4 a = false)
    ∧ (∀ (name : String) (mesh : List Point) (s : CMState),
        add_object name mesh none s = add_object name mesh (some eye4) s) := by
  refine ⟨?_, ?_, ?_⟩
  · intro name mesh a s ha
    simp [add_object, ha]
  · intro name mesh tr s h
    cases tr with
    | none =>
      exfalso
      have harr : arrIs4x4 eye4 = true := rfl
      cases hobj : s.objs name with
      | some e => simp [add_object, harr, hobj] at h
      | none => simp [add_object, harr, hobj] at h
    | some a =>
      by_cases ha : arrIs4x4 a = false
      · exact ⟨a, rfl, ha⟩
      · exfalso
        have harr : arrIs4x4 a = true := by
          revert ha; cases arrIs4x4 a <;> simp
        cases hobj : s.objs name with
        | some e => simp [add_object, harr, hobj] at h
        | none => simp [add_object, harr, hobj] at h
  · intro name mesh s
    rfl

/-- C8 witness: the amended theorem applied at concrete inputs (a 1x1 array
is rejected; omitted transform equals the identity array). -/
theorem C8_amended_witness :
    add_object "b" [P0] (some [[1]]) initState
      = (initState, some (Err.valueError "transform must be (4,4)!"))
    ∧ (∃ a, (some [[1]] : Option Arr) = some a ∧ arrIs4x4 a = false)
    ∧ add_object "b" [P0] none initState = add_object "b" [P0] (some eye4) initState :=
  ⟨C8_amended.1 "b" [P0] [[1]] initState rfl,
   C8_amended.2.1 "b" [P0] (some [[1]]) initState
     (by rw [C8_amended.1 "b" [P0] [[1]] initState rfl]),
   C8_amended.2.2 "b" [P0] initState⟩

end ClaimsEval

section Resolver

/-- Whether a `get_collision_pairs` call raised an exception. -/
def raised (r : Except Err PairMap) : Bool :=
  match r with
  | .ok _ => false
  | .error _ => true

lemma error_bind (e : Err) (g : PairMap → Except Err PairMap) :
    (Except.error e : Except Err PairMap) >>= g = .error e := rfl

lemma ok_bind (a : PairMap) (g : PairMap → Except Err PairMap) :
    (Except.ok a : Except Err PairMap) >>= g = g a := rfl

lemma resolveStep_error_of_bad (s : CMState) (bidir : Bool) (acc : PairMap)
    (c : Contact) (h : extract_name s c.o1 = none ∨ extract_name s c.o2 = none) :
    resolveStep s bidir acc c = .error Err.assertionError := by
  rcases h with h | h
  · simp [resolveStep, h]
  · cases h1 : extract_name s c.o1 with
    | none => simp [resolveStep, h1]
    | some n1 => simp [resolveStep, h1, h]

lemma fold_error_of_bad (s : CMState) (bidir : Bool) (c : Contact)
    (hbad : extract_name s c.o1 = none ∨ extract_name s c.o2 = none) :
    ∀ (l : List Contact) (acc : PairMap), c ∈ l →
      ∃ e, List.foldlM (resolveStep s bidir) acc l = .error e := by
  intro l
  induction l with
  | nil => intro acc hc; exact absurd hc (List.not_mem_nil c)
  | cons hd t ih =>
    intro acc hc
    rw [List.foldlM_cons]
    cases hr : resolveStep s bidir acc hd with
    | error e => exact ⟨e, rfl⟩
    | ok acc1 =>
      rcases List.mem_cons.mp hc with rfl | hct
      · rw [resolveStep_error_of_bad s bidir acc c hbad] at hr
        exact Except.noConfusion hr
      · obtain ⟨e, he⟩ := ih acc1 hct
        exact ⟨e, he⟩

/-- C4: a contact carrying a geometry identifier that the registry never
tracked makes `get_collision_pairs` raise (the `assert name is not None`
fails with `AssertionError`, or an earlier contact already raised); the call
never returns a mapping that silently omits the contact. -/
theorem C4_unresolved_identifier_raises (s : CMState) (contacts : List Contact)
    (bidir : Bool) (c : Contact) (hc : c ∈ contacts)
    (hbad : extract_name s c.o1 = none ∨ extract_name s c.o2 = none) :
    raised (get_collision_pairs s contacts bidir) = true := by
  obtain ⟨e, he⟩ := fold_error_of_bad s bidir c hbad contacts (fun _ => none) hc
  unfold get_collision_pairs
  rw [he]
  rfl

/-- C4 witness: geometry id 5 is tracked by no entry of `s_a`. -/
theorem C4_unresolved_identifier_raises_witness :
    raised (get_collision_pairs s_a [cBad] false) = true :=
  C4_unresolved_identifier_raises s_a [cBad] false cBad (List.mem_cons_self cBad [])
    (Or.inl rfl)

lemma resolveStep_preserves_isSome (s : CMState) (bidir : Bool) (acc acc' : PairMap)
    (c : Contact) (h : resolveStep s bidir acc c = .ok acc') (k : PairKey)
    (hk : (acc k).isSome = true) : (acc' k).isSome = true := by
  cases h1 : extract_name s c.o1 with
  | none => rw [resolveStep_error_of_bad s bidir acc c (Or.inl h1)] at h; exact Except.noConfusion h
  | some n1 =>
    cases h2 : extract_name s c.o2 with
    | none => rw [resolveStep_error_of_bad s bidir acc c (Or.inr h2)] at h; exact Except.noConfusion h
    | some n2 =>
      simp only [resolveStep, h1, h2] at h
      by_cases hdup : (acc (n1, n2, c.b1, c.b2)).isSome = true
      · rw [if_pos hdup] at h; exact Except.noConfusion h
      · rw [if_neg hdup] at h
        cases bidir with
        | false =>
          simp only [if_neg, Bool.false_eq_true, if_false, Except.ok.injEq] at h
          subst h
          by_cases hk1 : k = (n1, n2, c.b1, c.b2) <;> simp [hk1, hk]
        | true =>
          simp only [if_true, Except.ok.injEq] at h
          subst h
          by_cases hk2 : k = (n2, n1, c.b2, c.b1)
          · simp only [if_pos hk2, Option.isSome_some]
          · by_cases hk1 : k = (n1, n2, c.b1, c.b2)
            · simp only [if_neg hk2, if_pos hk1, Option.isSome_some]
            · simp only [if_neg hk2, if_neg hk1]
              exact hk

lemma resolveStep_mem_key (s : CMState) (bidir : Bool) (acc acc' : PairMap)
    (c : Contact) (k : PairKey) (h : resolveStep s bidir acc c = .ok acc')
    (hkey : contactKey s c = some k) : (acc' k).isSome = true := by
  cases h1 : extract_name s c.o1 with
  | none => rw [resolveStep_error_of_bad s bidir acc c (Or.inl h1)] at h; exact Except.noConfusion h
  | some n1 =>
    cases h2 : extract_name s c.o2 with
    | none => rw [resolveStep_error_of_bad s bidir acc c (Or.inr h2)] at h; exact Except.noConfusion h
    | some n2 =>
      simp only [contactKey, h1, h2, Option.some.injEq] at hkey
      subst hkey
      simp only [resolveStep, h1, h2] at h
      by_cases hdup : (acc (n1, n2, c.b1, c.b2)).isSome = true
      · rw [if_pos hdup] at h; exact Except.noConfusion h
      · rw [if_neg hdup] at h
        cases bidir with
        | false =>
          simp only [Bool.false_eq_true, if_false, Except.ok.injEq] at h
          subst h
          simp
        | true =>
          simp only [if_true, Except.ok.injEq] at h
          subst h
          by_cases hk2 : ((n1, n2, c.b1, c.b2) : PairKey) = (n2, n1, c.b2, c.b1)
          · simp only [if_pos hk2, Option.isSome_some]
          · simp only []
            rw [if_neg hk2]
            simp

lemma resolveStep_dup_error (s : CMState) (bidir : Bool) (acc : PairMap)
    (c : Contact) (k : PairKey) (hkey : contactKey s c = some k)
    (hk : (acc k).isSome = true) :
    resolveStep s bidir acc c = .error (.runtimeWarning "conflicting contact pairs!") := by
  cases h1 : extract_name s c.o1 with
  | none => simp [contactKey, h1] at hkey
  | some n1 =>
    cases h2 : extract_name s c.o2 with
    | none => simp [contactKey, h1, h2] at hkey
    | some n2 =>
      simp only [contactKey, h1, h2, Option.some.injEq] at hkey
      subst hkey
      simp [resolveStep, h1, h2, hk]

lemma fold_dup_error (s : CMState) (bidir : Bool) (c2 : Contact) (k : PairKey)
    (hkey : contactKey s c2 = some k) :
    ∀ (l : List Contact) (acc : PairMap), (acc k).isSome = true → c2 ∈ l →
      ∃ e, List.foldlM (resolveStep s bidir) acc l = .error e := by
  intro l
  induction l with
  | nil => intro acc _ hc; exact absurd hc (List.not_mem_nil c2)
  | cons hd t ih =>
    intro acc hk hc
    rw [List.foldlM_cons]
    cases hr : resolveStep s bidir acc hd with
    | error e => exact ⟨e, rfl⟩
    | ok acc1 =>
      rcases List.mem_cons.mp hc with rfl | hct
      · rw [resolveStep_dup_error s bidir acc c2 k hkey hk] at hr
        exact Except.noConfusion hr
      · obtain ⟨e, he⟩ :=
          ih acc1 (resolveStep_preserves_isSome s bidir acc acc1 hd hr k hk) hct
        exact ⟨e, he⟩

/-- C9: if the contact list contains two contacts (in order) resolving to
the same `(name1, name2, b1, b2)` key, `get_collision_pairs` raises (the
duplicate is met while its key is already present, triggering the
`RuntimeWarning "conflicting contact pairs!"` raise — or an earlier contact
already raised); it never returns a mapping that kept only one of them. -/
theorem C9_duplicate_key_raises (s : CMState) (bidir : Bool)
    (l1 l2 : List Contact) (c1 c2 : Contact) (k : PairKey)
    (h1 : contactKey s c1 = some k) (h2 : contactKey s c2 = some k)
    (hc2 : c2 ∈ l2) :
    raised (get_collision_pairs s (l1 ++ c1 :: l2) bidir) = true := by
  unfold get_collision_pairs
  rw [List.foldlM_append]
  cases hpre : List.foldlM (resolveStep s bidir) (fun _ => none) l1 with
  | error e => rw [error_bind]; rfl
  | ok acc1 =>
    rw [ok_bind, List.foldlM_cons]
    cases hr : resolveStep s bidir acc1 c1 with
    | error e => rw [error_bind]; rfl
    | ok acc2 =>
      rw [ok_bind]
      obtain ⟨e, he⟩ :=
        fold_dup_error s bidir c2 k h2 l2 acc2
          (resolveStep_mem_key s bidir acc1 acc2 c1 k hr h1) hc2
      rw [he]
      rfl

/-- C9 witness: the same contact fed twice on a state tracking both ids. -/
theorem C9_duplicate_key_raises_witness :
    raised (get_collision_pairs s_two ([] ++ cAB :: [cAB]) false) = true :=
  C9_duplicate_key_raises s_two false [] [cAB] cAB cAB ("a", "b", 7, 8) rfl rfl
    (List.mem_cons_self cAB [])

lemma mirrorInv_empty : MirrorInv (fun _ => none) := by
  intro a b i j pq h
  exact Option.noConfusion h

lemma resolveStep_bidir_mirrorInv (s : CMState) (acc acc' : PairMap) (c : Contact)
    (h : resolveStep s true acc c = .ok acc') (hinv : MirrorInv acc) :
    MirrorInv acc' := by
  cases h1 : extract_name s c.o1 with
  | none => rw [resolveStep_error_of_bad s true acc c (Or.inl h1)] at h; exact Except.noConfusion h
  | some n1 =>
    cases h2 : extract_name s c.o2 with
    | none => rw [resolveStep_error_of_bad s true acc c (Or.inr h2)] at h; exact Except.noConfusion h
    | some n2 =>
      simp only [resolveStep, h1, h2] at h
      by_cases hdup : (acc (n1, n2, c.b1, c.b2)).isSome = true
      · rw [if_pos hdup] at h; exact Except.noConfusion h
      · rw [if_neg hdup] at h
        simp only [if_true, Except.ok.injEq] at h
        subst h
        intro a b i j pq hpq
        simp only [] at hpq ⊢
        by_cases hm : ((a, b, i, j) : PairKey) = (n2, n1, c.b2, c.b1)
        · rw [if_pos hm] at hpq
          obtain rfl : (c.p2, c.p1) = pq := Option.some.inj hpq
          simp only [Prod.mk.injEq] at hm
          obtain ⟨rfl, rfl, rfl, rfl⟩ := hm
          by_cases hfm : ((b, a, c.b1, c.b2) : PairKey) = (a, b, c.b2, c.b1)
          · constructor
            · rw [if_pos hfm]
              exact Option.isSome_some
            · intro hne
              exact absurd hfm.symm hne
          · constructor
            · rw [if_neg hfm, if_pos rfl]
              exact Option.isSome_some
            · intro hne
              rw [if_neg hfm, if_pos rfl]
        · by_cases hf : ((a, b, i, j) : PairKey) = (n1, n2, c.b1, c.b2)
          · rw [if_neg hm, if_pos hf] at hpq
            obtain rfl : (c.p1, c.p2) = pq := Option.some.inj hpq
            simp only [Prod.mk.injEq] at hf
            obtain ⟨rfl, rfl, rfl, rfl⟩ := hf
            constructor
            · rw [if_pos rfl]
              exact Option.isSome_some
            · intro hne
              rw [if_pos rfl]
          · rw [if_neg hm, if_neg hf] at hpq
            obtain ⟨hps, hpv⟩ := hinv a b i j pq hpq
            have hmm : ((b, a, j, i) : PairKey) ≠ (n2, n1, c.b2, c.b1) := by
              intro hcontra
              apply hf
              simp only [Prod.mk.injEq] at hcontra
              obtain ⟨rfl, rfl, rfl, rfl⟩ := hcontra
              rfl
            have hmf : ((b, a, j, i) : PairKey) ≠ (n1, n2, c.b1, c.b2) := by
              intro hcontra
              apply hm
              simp only [Prod.mk.injEq] at hcontra
              obtain ⟨rfl, rfl, rfl, rfl⟩ := hcontra
              rfl
            constructor
            · rw [if_neg hmm, if_neg hmf]
              exact hps
            · intro hne
              rw [if_neg hmm, if_neg hmf]
              exact hpv hne

lemma fold_mirrorInv (s : CMState) :
    ∀ (l : List Contact) (acc res : PairMap), MirrorInv acc →
      List.foldlM (resolveStep s true) acc l = .ok res → MirrorInv res := by
  intro l
  induction l with
  | nil =>
    intro acc res hinv h
    rw [List.foldlM_nil] at h
    exact (Except.ok.inj h) ▸ hinv
  | cons hd t ih =>
    intro acc res hinv h
    rw [List.foldlM_cons] at h
    cases hr : resolveStep s true acc hd with
    | error e =>
      rw [hr, error_bind] at h
      exact Except.noConfusion h
    | ok acc1 =>
      rw [hr, ok_bind] at h
      exact ih acc1 res (resolveStep_bidir_mirrorInv s acc acc1 hd hr hinv) h

/-- C10 (amended): whenever `get_collision_pairs` with `bidirectional=True`
returns a mapping, every key's mirrored key is present, and whenever the
mirrored key differs from the key itself it carries the swapped contact
points (a self-mirrored key `(A,A,i,i)` instead ends up holding the reversed
pair, see the counterexample). -/
theorem C10_amended (s : CMState) (contacts : List Contact) (res : PairMap)
    (h : get_collision_pairs s contacts true = .ok res) : MirrorInv res :=
  fold_mirrorInv s contacts (fun _ => none) res mirrorInv_empty h

/-- The returned mapping of a `get_collision_pairs` call (empty on error). -/
def resultOrEmpty (r : Except Err PairMap) : PairMap :=
  match r with
  | .ok m => m
  | .error _ => fun _ => none

/-- C10 witness: the amended theorem applied to a successful bidirectional
query over one contact between two distinct objects. -/
theorem C10_amended_witness :
    MirrorInv (resultOrEmpty (get_collision_pairs s_two [cAB] true)) :=
  C10_amended s_two [cAB] (resultOrEmpty (get_collision_pairs s_two [cAB] true)) rfl

/-- C10 counterexample: on a degenerate self-contact whose key equals its own
mirror, the bidirectional mirror insertion overwrites the forward entry, so
the key holds the reversed pair `(P1, P0)` and not the swap of itself — the
claim's mirror equation fails at this concrete input. -/
theorem C10_counterexample :
    pairAt (get_collision_pairs s_a [cSelf] true) ("a", "a", 5, 5) = some (P1, P0)
    ∧ ((P1, P0) : Point × Point) ≠ (P0, P1) :=
  ⟨rfl, by decide⟩

end Resolver

section Transforms

/-- The state produced by a successful `set_transform` tail: engine pose,
mesh and applied transform of `name` all updated to `t` (with `mesh1` the
updated vertex list). -/
def absState (s : CMState) (name : String) (e : Entry) (t : Mat4)
    (mesh1 : List Point) : CMState :=
  { objs := fun n => if n = name then some { e with mesh := mesh1 } else s.objs n
    applied := fun n => if n = name then some t else s.applied n
    names := s.names
    poses := fun o => if o = e.objId then setRT t else s.poses o
    registered := s.registered
    nextId := s.nextId }

lemma set_transform_abs (s : CMState) (name : String) (e : Entry) (t : Mat4)
    (he : s.objs name = some e) :
    set_transform name t false s = set_update name t e s := by
  simp only [set_transform, he]

lemma set_transform_rel (s : CMState) (name : String) (e : Entry) (t p : Mat4)
    (he : s.objs name = some e) (hp : s.applied name = some p) :
    set_transform name t true s = set_update name (t * p) e s := by
  simp only [set_transform, he, hp]

lemma set_update_applied_none (s : CMState) (name : String) (e : Entry)
    (t : Mat4) (h : s.applied name = none) :
    set_update name t e s = (absState s name e t (e.mesh.map (applyPoint t)), none) := by
  simp only [set_update, h, absState]

lemma set_update_applied_some (s : CMState) (name : String) (e : Entry)
    (t p : Mat4) (h : s.applied name = some p) (hp : p.det ≠ 0) :
    set_update name t e s
      = (absState s name e t ((e.mesh.map (applyPoint (npInv p))).map (applyPoint t)),
         none) := by
  simp only [set_update, h, if_neg hp, absState]

lemma absState_twice (s : CMState) (name : String) (e : Entry) (t1 t2 : Mat4)
    (m1 m2 : List Point) :
    absState (absState s name e t1 m1) name { e with mesh := m1 } t2 m2
      = absState s name e t2 m2 := by
  refine CMState.ext ?_ ?_ ?_ ?_ ?_ ?_
  · funext n
    by_cases hn : n = name <;> simp [absState, hn]
  · funext n
    by_cases hn : n = name <;> simp [absState, hn]
  · rfl
  · funext o
    by_cases ho : o = e.objId <;> simp [absState, ho]
  · rfl
  · rfl

/-- C2: starting from any registered object whose recorded applied transform
(if any) is invertible, an absolute `set_transform` with an invertible affine
pose `T0` followed by a relative `set_transform` with delta `D` produces
exactly the state of the single absolute call with `D * T0`, which succeeds
and leaves `get_transform` returning `D * T0`. -/
theorem C2_relative_composition (s : CMState) (name : String) (e : Entry)
    (T0 D : Mat4) (he : s.objs name = some e) (hAff : IsAffine T0)
    (hdet : T0.det ≠ 0)
    (hprev : ∀ p, s.applied name = some p → p.det ≠ 0) :
    pyThen (set_transform name T0 false s) (set_transform name D true)
        = set_transform name (D * T0) false s
    ∧ (set_transform name (D * T0) false s).2 = none
    ∧ get_transform name (set_transform name (D * T0) false s).1 = .ok (D * T0) := by
  cases happ : s.applied name with
  | none =>
    rw [set_transform_abs s name e T0 he, set_update_applied_none s name e T0 happ,
        set_transform_abs s name e (D * T0) he,
        set_update_applied_none s name e (D * T0) happ]
    simp only [pyThen]
    have hobj1 : (absState s name e T0 (e.mesh.map (applyPoint T0))).objs name
        = some { e with mesh := e.mesh.map (applyPoint T0) } := by simp [absState]
    have happ1 : (absState s name e T0 (e.mesh.map (applyPoint T0))).applied name
        = some T0 := by simp [absState]
    rw [set_transform_rel _ _ _ D T0 hobj1 happ1,
        set_update_applied_some _ _ _ (D * T0) T0 happ1 hdet]
    have hmesh :
        (({ e with mesh := e.mesh.map (applyPoint T0) } : Entry).mesh.map
            (applyPoint (npInv T0))).map (applyPoint (D * T0))
          = e.mesh.map (applyPoint (D * T0)) := by
      show ((e.mesh.map (applyPoint T0)).map (applyPoint (npInv T0))).map
          (applyPoint (D * T0)) = _
      rw [map_applyPoint_npInv_cancel T0 hAff hdet]
    refine ⟨?_, by trivial, ?_⟩
    · rw [hmesh, absState_twice]
    · simp [get_transform, absState]
  | some p =>
    have hpdet := hprev p happ
    rw [set_transform_abs s name e T0 he,
        set_update_applied_some s name e T0 p happ hpdet,
        set_transform_abs s name e (D * T0) he,
        set_update_applied_some s name e (D * T0) p happ hpdet]
    simp only [pyThen]
    have hobj1 : (absState s name e T0
          ((e.mesh.map (applyPoint (npInv p))).map (applyPoint T0))).objs name
        = some { e with
            mesh := (e.mesh.map (applyPoint (npInv p))).map (applyPoint T0) } := by
      simp [absState]
    have happ1 : (absState s name e T0
          ((e.mesh.map (applyPoint (npInv p))).map (applyPoint T0))).applied name
        = some T0 := by simp [absState]
    rw [set_transform_rel _ _ _ D T0 hobj1 happ1,
        set_update_applied_some _ _ _ (D * T0) T0 happ1 hdet]
    have hmesh :
        (({ e with
              mesh := (e.mesh.map (applyPoint (npInv p))).map (applyPoint T0) } : Entry).mesh.map
            (applyPoint (npInv T0))).map (applyPoint (D * T0))
          = (e.mesh.map (applyPoint (npInv p))).map (applyPoint (D * T0)) := by
      show (((e.mesh.map (applyPoint (npInv p))).map (applyPoint T0)).map
          (applyPoint (npInv T0))).map (applyPoint (D * T0)) = _
      rw [map_applyPoint_npInv_cancel T0 hAff hdet]
    refine ⟨?_, by trivial, ?_⟩
    · rw [hmesh, absState_twice]
    · simp [get_transform, absState]

/-- C2 witness: the theorem applied on `s_a` with `T0 = 1` and `D = TxM`. -/
theorem C2_relative_composition_witness :
    pyThen (set_transform "a" 1 false s_a) (set_transform "a" TxM true)
      = set_transform "a" (TxM * 1) false s_a
    ∧ (set_transform "a" (TxM * 1) false s_a).2 = none
    ∧ get_transform "a" (set_transform "a" (TxM * 1) false s_a).1 = .ok (TxM * 1) :=
  C2_relative_composition s_a "a" ⟨1, 0, meshA⟩ 1 TxM rfl isAffine_one
    (by simp [Matrix.det_one])
    (by intro p h; exact absurd (show (none : Option Mat4) = some p from h) (by simp))

/-- The state produced by a successful registration of a fresh name. -/
def freshState (s : CMState) (name : String) (mesh0 : List Point) (tA : Arr) : CMState :=
  { objs := fun n => if n = name then some ⟨s.nextId + 1, s.nextId, mesh0⟩ else s.objs n
    applied := s.applied
    names := fun g => if g = s.nextId then some name else s.names g
    poses := fun o => if o = s.nextId + 1 then setRT (toMat4 tA) else s.poses o
    registered := (s.nextId + 1) :: s.registered
    nextId := s.nextId + 2 }

lemma add_object_fresh (s : CMState) (name : String) (mesh0 : List Point)
    (tr : Option Arr) (hobj : s.objs name = none)
    (harr : arrIs4x4 (tr.getD eye4) = true) :
    add_object name mesh0 tr s = (freshState s name mesh0 (tr.getD eye4), none) := by
  simp [add_object, harr, hobj, freshState]

/-- C1 (amended): the three pose representations (engine pose, applied
transform, mesh vertices) agree from the first successful `set_transform`
onwards: registering a fresh name and applying an absolute invertible affine
pose establishes the agreement (`Synced`), every further successful
absolute/relative `set_transform` with an invertible affine pose preserves
it, and in any `Synced` state the mesh centroid equals `get_transform name`
applied to the registration-time centroid while the engine pose equals the
applied transform. (Immediately after `add_object` with a non-identity
initial transform the agreement fails — see the counterexample.) -/
theorem C1_mesh_pose_consistency :
    (∀ (s : CMState) (name : String) (mesh0 : List Point) (tr : Option Arr) (T : Mat4),
        s.objs name = none → s.applied name = none →
        arrIs4x4 (tr.getD eye4) = true → IsAffine T → T.det ≠ 0 →
        (add_object name mesh0 tr s).2 = none
        ∧ (set_transform name T false (add_object name mesh0 tr s).1).2 = none
        ∧ Synced (set_transform name T false (add_object name mesh0 tr s).1).1 name mesh0)
    ∧ (∀ (s : CMState) (name : String) (mesh0 : List Point) (T : Mat4) (rel : Bool),
        Synced s name mesh0 → IsAffine T → T.det ≠ 0 →
        (set_transform name T rel s).2 = none
        ∧ Synced (set_transform name T rel s).1 name mesh0)
    ∧ (∀ (s : CMState) (name : String) (mesh0 : List Point),
        Synced s name mesh0 → mesh0 ≠ [] →
        ∃ e t, s.objs name = some e ∧ get_transform name s = .ok t
          ∧ s.poses e.objId = setRT t
          ∧ centroid e.mesh = applyPoint t (centroid mesh0)) := by
  refine ⟨?_, ?_, ?_⟩
  · intro s name mesh0 tr T hobj happ harr hAff hdet
    rw [add_object_fresh s name mesh0 tr hobj harr]
    have hS1objs : (freshState s name mesh0 (tr.getD eye4)).objs name
        = some ⟨s.nextId + 1, s.nextId, mesh0⟩ := by simp [freshState]
    have hS1app : (freshState s name mesh0 (tr.getD eye4)).applied name = none := happ
    rw [set_transform_abs _ name _ T hS1objs, set_update_applied_none _ name _ T hS1app]
    refine ⟨by trivial, by trivial, ?_⟩
    exact ⟨{ (⟨s.nextId + 1, s.nextId, mesh0⟩ : Entry) with
              mesh := (⟨s.nextId + 1, s.nextId, mesh0⟩ : Entry).mesh.map (applyPoint T) }, T,
      by simp [absState], by simp [absState], hAff, hdet, by simp [absState], rfl⟩
  · intro s name mesh0 T rel hSync hAff hdet
    obtain ⟨e, t, he, ht, htAff, htdet, hpose, hmesh⟩ := hSync
    have hcancel : e.mesh.map (applyPoint (npInv t)) = mesh0 := by
      rw [hmesh, map_applyPoint_npInv_cancel t htAff htdet]
    cases rel with
    | false =>
      rw [set_transform_abs s name e T he,
          set_update_applied_some s name e T t ht htdet]
      refine ⟨rfl, { e with
          mesh := (e.mesh.map (applyPoint (npInv t))).map (applyPoint T) }, T,
        by simp [absState], by simp [absState], hAff, hdet, by simp [absState], ?_⟩
      show (e.mesh.map (applyPoint (npInv t))).map (applyPoint T)
          = mesh0.map (applyPoint T)
      rw [hcancel]
    | true =>
      rw [set_transform_rel s name e T t he ht,
          set_update_applied_some s name e (T * t) t ht htdet]
      refine ⟨rfl, { e with
          mesh := (e.mesh.map (applyPoint (npInv t))).map (applyPoint (T * t)) }, T * t,
        by simp [absState], by simp [absState], isAffine_mul T t hAff htAff, ?_,
        by simp [absState], ?_⟩
      · rw [Matrix.det_mul]
        exact mul_ne_zero hdet htdet
      · show (e.mesh.map (applyPoint (npInv t))).map (applyPoint (T * t))
            = mesh0.map (applyPoint (T * t))
        rw [hcancel]
  · intro s name mesh0 hSync hm
    obtain ⟨e, t, he, ht, _, _, hpose, hmesh⟩ := hSync
    refine ⟨e, t, he, ?_, hpose, ?_⟩
    · simp [get_transform, he, ht]
    · rw [hmesh, centroid_map t mesh0 hm]

/-- C1 witness: establishment on a fresh manager, preservation by a relative
identity delta, and the centroid consequence, all at concrete inputs. -/
theorem C1_mesh_pose_consistency_witness :
    (add_object "w" [P0] (some eye4) initState).2 = none
    ∧ (set_transform "w" 1 false (add_object "w" [P0] (some eye4) initState).1).2 = none
    ∧ Synced (set_transform "w" 1 false (add_object "w" [P0] (some eye4) initState).1).1
        "w" [P0]
    ∧ (set_transform "w" 1 true
        (set_transform "w" 1 false (add_object "w" [P0] (some eye4) initState).1).1).2 = none
    ∧ Synced (set_transform "w" 1 true
        (set_transform "w" 1 false (add_object "w" [P0] (some eye4) initState).1).1).1
        "w" [P0]
    ∧ (∃ e t, ((set_transform "w" 1 false (add_object "w" [P0] (some eye4) initState).1).1).objs "w" = some e
        ∧ get_transform "w" (set_transform "w" 1 false (add_object "w" [P0] (some eye4) initState).1).1 = .ok t
        ∧ ((set_transform "w" 1 false (add_object "w" [P0] (some eye4) initState).1).1).poses e.objId = setRT t
        ∧ centroid e.mesh = applyPoint t (centroid [P0])) := by
  have h1 := C1_mesh_pose_consistency.1 initState "w" [P0] (some eye4) 1 rfl rfl rfl
    isAffine_one (by simp [Matrix.det_one])
  have h2 := C1_mesh_pose_consistency.2.1
    (set_transform "w" 1 false (add_object "w" [P0] (some eye4) initState).1).1
    "w" [P0] 1 true h1.2.2 isAffine_one (by simp [Matrix.det_one])
  have h3 := C1_mesh_pose_consistency.2.2
    (set_transform "w" 1 false (add_object "w" [P0] (some eye4) initState).1).1
    "w" [P0] h1.2.2 (List.cons_ne_nil P0 [])
  exact ⟨h1.1, h1.2.1, h1.2.2, h2.1, h2.2, h3⟩

/-- State after `add_object("c", [P0], txArr)` on a fresh manager: registered
with a non-identity initial transform, never passed to `set_transform`. -/
def s_c1 : CMState := (add_object "c" [P0] (some txArr) initState).1

/-- C1 counterexample: immediately after `add_object` with a non-identity
initial transform the three representations do not agree: the engine pose is
the initial translation, but the mesh is untouched (its centroid is not the
transformed centroid) and `get_transform` raises `KeyError` instead of
returning any transform. -/
theorem C1_counterexample :
    (add_object "c" [P0] (some txArr) initState).2 = none
    ∧ get_transform "c" s_c1 = .error Err.keyError
    ∧ s_c1.objs "c" = some ⟨1, 0, [P0]⟩
    ∧ s_c1.poses 1 = setRT (toMat4 txArr)
    ∧ centroid [P0] ≠ applyPoint (setRT (toMat4 txArr)) (centroid [P0]) := by
  refine ⟨rfl, rfl, rfl, rfl, ?_⟩
  have hL : centroid [P0] = P0 := by
    funext i
    simp [centroid, P0]
  intro h
  have h0 := congrFun h 0
  rw [hL] at h0
  rw [show applyPoint (setRT (toMat4 txArr)) P0 0 = 1 from by
        simp [applyPoint, setRT, toMat4, txArr, P0,
          show ((3 : Fin 4) : ℕ) = 3 from rfl]] at h0
  simp [P0] at h0

end Transforms

end FignetCollision
